import Mathlib

/-!
Shallow embedding of the simple-chess backend (Go): the matchmaking-and-relay
engine in backend/main.go and backend/game.go.

Connections are modelled as opaque identifiers (`Conn := Nat`); a write to a
connection is recorded as a pair of the destination side and the message.
The relay loop `playChess` selects over two inbound channels; a run of the
loop is modelled as the sequential list of messages it dequeues, each tagged
with the channel (side) it arrived on.  Goroutine scheduling only interleaves
the two channels, and the loop body handles one dequeued message at a time,
so this sequential trace model is faithful to the per-message behaviour of
the Go `select` loop.
-/

/-- Identifier standing for a `*websocket.Conn` handle. -/
abbrev Conn := Nat

/-- The Go `Message` struct: `Type`, `Color`, `From`, `To`, `Promotion`,
all strings (JSON fields `type`, `color`, `from`, `to`, `promotion`). -/
structure Message where
  «Type» : String
  Color : String
  From : String
  To : String
  Promotion : String
deriving DecidableEq

/-- The two sides of a game; also names the two inbound channels of the
relay loop (`whiteChannel` and `blackChannel`). -/
inductive Side where
  | white
  | black
deriving DecidableEq

/-- The opposite side. -/
def Side.other : Side → Side
  | Side.white => Side.black
  | Side.black => Side.white

/-- One message dequeued by the relay loop's `select`, tagged with the
channel (side) it arrived on. -/
structure RelayEvent where
  side : Side
  msg : Message
deriving DecidableEq

/-- Whether the given side holds the turn when `turnWhite` has the given
value (the Go loop encodes the turn as the boolean `turnWhite`). -/
def holdsTurn (turnWhite : Bool) : Side → Bool
  | Side.white => turnWhite
  | Side.black => !turnWhite

/-- Outcome of one iteration of the relay loop body: either the loop
returns, or it continues with an optional write and an updated turn. -/
inductive StepResult where
  | terminate
  | cont (write : Option (Side × Message)) (turnWhite : Bool)
deriving DecidableEq

/-- One iteration of the `for { select { ... } }` body of `playChess`:
an error-typed message returns from the loop; otherwise a message from the
channel whose side holds the turn is written to the other side's websocket
and the turn flips, and a message from the other channel is dropped. -/
def relayStep (turnWhite : Bool) (e : RelayEvent) : StepResult :=
  match e.side with
  | Side.white =>
    if e.msg.«Type» = "error" then StepResult.terminate
    else if turnWhite then StepResult.cont (some (Side.black, e.msg)) false
    else StepResult.cont none turnWhite
  | Side.black =>
    if e.msg.«Type» = "error" then StepResult.terminate
    else if !turnWhite then StepResult.cont (some (Side.white, e.msg)) true
    else StepResult.cont none turnWhite

/-- The relay loop of `playChess` over a trace of dequeued messages:
returns the list of websocket writes it performs, in order.  Reaching the
end of the trace models a still-running loop; `StepResult.terminate`
models the `return` statements. -/
def relayLoop : Bool → List RelayEvent → List (Side × Message)
  | _, [] => []
  | turnWhite, e :: rest =>
    match relayStep turnWhite e with
    | StepResult.terminate => []
    | StepResult.cont none t' => relayLoop t' rest
    | StepResult.cont (some w) t' => w :: relayLoop t' rest

/-- `Message{Type: "start", Color: "white"}` (other fields zero-valued). -/
def startWhiteMsg : Message :=
  { «Type» := "start", Color := "white", From := "", To := "", Promotion := "" }

/-- `Message{Type: "start", Color: "black"}` (other fields zero-valued). -/
def startBlackMsg : Message :=
  { «Type» := "start", Color := "black", From := "", To := "", Promotion := "" }

/-- `playChess`: writes the two start messages, then runs the relay loop
with `turnWhite := true`.  Output is the ordered list of websocket writes. -/
def playChess (events : List RelayEvent) : List (Side × Message) :=
  (Side.white, startWhiteMsg) :: (Side.black, startBlackMsg) :: relayLoop true events

/-- The `ChessGame` struct: two websocket pointer slots, each possibly nil. -/
structure ChessGame where
  whiteWebsocket : Option Conn
  blackWebsocket : Option Conn
deriving DecidableEq

/-- `NewChessGame`: a game whose white slot holds the given connection and
whose black slot is the zero value (nil). -/
def NewChessGame (ws : Conn) : ChessGame :=
  { whiteWebsocket := some ws, blackWebsocket := none }

/-- The error value `ErrCannotJoinStartedGame` (the spec's
`SessionAlreadyFull`). -/
inductive GameError where
  | ErrCannotJoinStartedGame
deriving DecidableEq

/-- `(game *ChessGame) Join(ws)`: rejects when the black slot is already
filled, otherwise fills the black slot.  Returns the updated game together
with the Go error value (`none` for success). -/
def ChessGame.Join (game : ChessGame) (ws : Conn) : ChessGame × Option GameError :=
  match game.blackWebsocket with
  | some _ => (game, some GameError.ErrCannotJoinStartedGame)
  | none => ({ game with blackWebsocket := some ws }, none)

/-- `wsHandler` acting on the global `game` variable: with no open game the
connection opens a new game; otherwise the open game is joined and the
global is cleared to nil regardless of the join's outcome.  The second
component records the join attempt (the now-active game and the error),
which Go drops from the global but keeps running. -/
def wsHandler (game : Option ChessGame) (ws : Conn) :
    Option ChessGame × Option (ChessGame × Option GameError) :=
  match game with
  | none => (some (NewChessGame ws), none)
  | some g => (none, some (g.Join ws))

/-- Folds `wsHandler` over a list of arriving connections, returning the
final open-game state and the list of games on which a join was attempted,
in order. -/
def runMatchmaker : Option ChessGame → List Conn → Option ChessGame × List ChessGame
  | st, [] => (st, [])
  | st, c :: rest =>
    match wsHandler st c with
    | (st', none) => runMatchmaker st' rest
    | (st', some (g, _)) =>
      let r := runMatchmaker st' rest
      (r.1, g :: r.2)

/-- The expected pairing of a connection sequence: 1st with 2nd, 3rd with
4th, and so on. -/
def chunkPairs : List Conn → List ChessGame
  | a :: b :: rest =>
    { whiteWebsocket := some a, blackWebsocket := some b } :: chunkPairs rest
  | _ => []

/-- The open game left over after a connection sequence: the last arrival
when the count is odd, nothing when it is even. -/
def pendingAfter : List Conn → Option ChessGame
  | [] => none
  | [a] => some (NewChessGame a)
  | _ :: _ :: rest => pendingAfter rest

/-- `Message{Type: "error"}`: the synthetic signal a reader goroutine sends
on read failure. -/
def errorMessage : Message :=
  { «Type» := "error", Color := "", From := "", To := "", Promotion := "" }

/-- `forwardFromWebsocketToChannel` over a finite trace of `ReadJSON`
outcomes (`Except.ok` a parsed message, `Except.error` a read failure):
returns the list of messages sent on the channel, in order.  The loop stops
at the first failure, publishing the synthetic error message; an exhausted
trace models a reader still blocked on its next read. -/
def forwardFromWebsocketToChannel : List (Except Unit Message) → List Message
  | [] => []
  | Except.error _ :: _ => [errorMessage]
  | Except.ok m :: rest => m :: forwardFromWebsocketToChannel rest

/-- A sample well-formed move message used to instantiate theorems. -/
def sampleMove : Message :=
  { «Type» := "move", Color := "white", From := "g1", To := "f3", Promotion := "q" }

/-- Helper: whenever the relay step writes a message, that message is the
one that arrived on the channel. -/
theorem relayStep_forward_src (t t' : Bool) (e : RelayEvent) (w : Side × Message)
    (h : relayStep t e = StepResult.cont (some w) t') : w.2 = e.msg := by
  cases e with
  | mk side msg =>
    cases side <;> simp only [relayStep] at h <;> split_ifs at h <;> simp_all <;>
      rw [← h.1]

/-- Claim C1: the relay loop starts with the turn set to white; a
non-error message from the side holding the turn is forwarded to the other
side and the turn flips, and a non-error message from the side not holding
the turn is not forwarded and leaves the turn unchanged. -/
theorem relay_turn_gating :
    (∀ events, playChess events =
        (Side.white, startWhiteMsg) :: (Side.black, startBlackMsg) :: relayLoop true events) ∧
    holdsTurn true Side.white = true ∧
    (∀ t e, e.msg.«Type» ≠ "error" → holdsTurn t e.side = true →
        relayStep t e = StepResult.cont (some (e.side.other, e.msg)) (!t)) ∧
    (∀ t e, e.msg.«Type» ≠ "error" → holdsTurn t e.side = false →
        relayStep t e = StepResult.cont none t) := by
  refine ⟨fun _ => rfl, rfl, ?_, ?_⟩ <;>
    · intro t e hne hturn
      cases e with
      | mk side msg =>
        cases side <;> cases t <;> simp_all [relayStep, holdsTurn, Side.other]

/-- Witness for C1 at concrete inputs: a white move on white's turn is
forwarded to black and flips the turn; a black move on white's turn is
dropped and the turn stays white. -/
theorem relay_turn_gating_witness :
    relayStep true (RelayEvent.mk Side.white sampleMove) =
      StepResult.cont (some (Side.black, sampleMove)) false ∧
    relayStep true (RelayEvent.mk Side.black sampleMove) =
      StepResult.cont none true :=
  ⟨relay_turn_gating.2.2.1 true (RelayEvent.mk Side.white sampleMove)
      (by decide) (by decide),
   relay_turn_gating.2.2.2 true (RelayEvent.mk Side.black sampleMove)
      (by decide) (by decide)⟩

/-- Claim C5: an error-kind message dequeued from either channel makes the
relay loop return at once: no further write is performed on either
connection, whatever messages were still queued. -/
theorem error_signal_terminates_relay (t : Bool) (e : RelayEvent)
    (rest : List RelayEvent) (h : e.msg.«Type» = "error") :
    relayLoop t (e :: rest) = [] := by
  cases e with
  | mk side msg =>
    simp only at h
    cases side <;> simp [relayLoop, relayStep, h]

/-- Witness for C5: the synthetic disconnect signal on the white channel
ends the session even though a black move is still queued. -/
theorem error_signal_terminates_relay_witness :
    relayLoop false (RelayEvent.mk Side.white errorMessage ::
      [RelayEvent.mk Side.black sampleMove]) = [] :=
  error_signal_terminates_relay false (RelayEvent.mk Side.white errorMessage)
    [RelayEvent.mk Side.black sampleMove] (by decide)

/-- Claim C9: any message whose type is the error kind terminates the relay
step, regardless of whose turn it is and of the other fields, so a
client-composed error message ends the session just like the synthetic
disconnect signal. -/
theorem any_error_message_terminates (t : Bool) (e : RelayEvent)
    (h : e.msg.«Type» = "error") : relayStep t e = StepResult.terminate := by
  cases e with
  | mk side msg =>
    simp only at h
    cases side <;> simp [relayStep, h]

/-- Witness for C9: client-composed error messages (with move fields set)
terminate the step on both turn values, also from the out-of-turn side. -/
theorem any_error_message_terminates_witness :
    relayStep true (RelayEvent.mk Side.black (Message.mk "error" "black" "a7" "a5" "q")) =
      StepResult.terminate ∧
    relayStep false (RelayEvent.mk Side.white (Message.mk "error" "white" "h2" "h4" "r")) =
      StepResult.terminate :=
  ⟨any_error_message_terminates true
      (RelayEvent.mk Side.black (Message.mk "error" "black" "a7" "a5" "q")) (by decide),
   any_error_message_terminates false
      (RelayEvent.mk Side.white (Message.mk "error" "white" "h2" "h4" "r")) (by decide)⟩

/-- Claim C4 (code behaviour at the failing input): a move message with an
empty `To` field, arriving from white on white's turn, is nevertheless
forwarded to black and flips the turn — the `validate` struct tags are
never enforced by the relay. -/
theorem malformed_move_forwarded :
    relayStep true (RelayEvent.mk Side.white (Message.mk "move" "" "e2" "" "q")) =
      StepResult.cont (some (Side.black, Message.mk "move" "" "e2" "" "q")) false ∧
    relayLoop true [RelayEvent.mk Side.white (Message.mk "move" "" "e2" "" "q")] =
      [(Side.black, Message.mk "move" "" "e2" "" "q")] := by
  constructor <;> decide

/-- Claim C6: joining a game whose black slot is already filled returns the
`ErrCannotJoinStartedGame` error and leaves the game record exactly as it
was; the late connection is not stored anywhere in the game. -/
theorem join_full_rejected (g : ChessGame) (ws b : Conn)
    (h : g.blackWebsocket = some b) :
    g.Join ws = (g, some GameError.ErrCannotJoinStartedGame) := by
  simp [ChessGame.Join, h]

/-- Witness for C6: a third connection joining a full game is rejected and
the game is unchanged. -/
theorem join_full_rejected_witness :
    ChessGame.Join (ChessGame.mk (some 0) (some 1)) 2 =
      (ChessGame.mk (some 0) (some 1), some GameError.ErrCannotJoinStartedGame) :=
  join_full_rejected (ChessGame.mk (some 0) (some 1)) 2 1 rfl

/-- Claim C10: `NewChessGame` fills only the white slot, leaving black
empty, and a successful `Join` writes only the black slot, returning the
white slot exactly as it was. -/
theorem session_slots_frame :
    (∀ ws, NewChessGame ws =
        ChessGame.mk (some ws) none) ∧
    (∀ (g : ChessGame) (ws : Conn), g.blackWebsocket = none →
        g.Join ws = (ChessGame.mk g.whiteWebsocket (some ws), none)) := by
  refine ⟨fun _ => rfl, ?_⟩
  intro g ws h
  cases g with
  | mk w b => simp only at h; subst h; rfl

/-- Witness for C10: joining the waiting game of connection 5 with
connection 7 fills the black slot and keeps the white slot. -/
theorem session_slots_frame_witness :
    ChessGame.Join (ChessGame.mk (some 5) none) 7 =
      (ChessGame.mk (some 5) (some 7), none) :=
  session_slots_frame.2 (ChessGame.mk (some 5) none) 7 rfl

/-- Helper for C2: starting from no open game, the matchmaker pairs the
arrivals strictly in order and leaves the last arrival open when the count
is odd. -/
theorem runMatchmaker_pairs :
    ∀ cs, runMatchmaker none cs = (pendingAfter cs, chunkPairs cs) := by
  intro cs
  induction cs using pendingAfter.induct with
  | case1 => rfl
  | case2 a => rfl
  | case3 a b rest ih =>
    simp [runMatchmaker, wsHandler, NewChessGame, ChessGame.Join,
      pendingAfter, chunkPairs, ih]

/-- Claim C2: a connection arriving with no open game opens a new game as
white and records it; a connection arriving with an open game is offered as
black to that game and the record is cleared whether or not the join
succeeds; consequently arrivals pair strictly in order (1st with 2nd, 3rd
with 4th, ...) with at most one open game at any time. -/
theorem matchmaker_pairing :
    (∀ c, wsHandler none c = (some (NewChessGame c), none)) ∧
    (∀ (g : ChessGame) (c : Conn), (wsHandler (some g) c).1 = none) ∧
    (∀ (g : ChessGame) (c : Conn), (wsHandler (some g) c).2 = some (g.Join c)) ∧
    (∀ cs, runMatchmaker none cs = (pendingAfter cs, chunkPairs cs)) :=
  ⟨fun _ => rfl, fun _ _ => rfl, fun _ _ => rfl, runMatchmaker_pairs⟩

/-- Claim C3: the session writes exactly one start message to each paired
connection — color white to the first and black to the second, the other
fields equal — before any other write, and every later write carries a
message dequeued from the clients, so the pairing itself sends no further
start message and no move precedes the two starts. -/
theorem start_broadcast :
    (∀ events, playChess events =
        (Side.white, startWhiteMsg) :: (Side.black, startBlackMsg) :: relayLoop true events) ∧
    (startWhiteMsg.«Type» = "start" ∧ startBlackMsg.«Type» = "start" ∧
      startWhiteMsg.Color = "white" ∧ startBlackMsg.Color = "black" ∧
      startWhiteMsg.From = startBlackMsg.From ∧ startWhiteMsg.To = startBlackMsg.To ∧
      startWhiteMsg.Promotion = startBlackMsg.Promotion) ∧
    (∀ (t : Bool) (events : List RelayEvent) (w : Side × Message),
        w ∈ relayLoop t events → w.2 ∈ events.map RelayEvent.msg) := by
  refine ⟨fun _ => rfl, by decide, ?_⟩
  intro t events
  induction events generalizing t with
  | nil => intro w hw; simp [relayLoop] at hw
  | cons e rest ih =>
    intro w hw
    rw [relayLoop] at hw
    cases hstep : relayStep t e with
    | terminate => rw [hstep] at hw; simp at hw
    | cont wr t' =>
      rw [hstep] at hw
      cases wr with
      | none =>
        simp only [List.map_cons, List.mem_cons]
        exact Or.inr (ih t' w hw)
      | some w0 =>
        simp only [List.mem_cons] at hw
        simp only [List.map_cons, List.mem_cons]
        cases hw with
        | inl hweq =>
          rw [hweq]
          exact Or.inl (relayStep_forward_src t t' e w0 hstep)
        | inr hmem => exact Or.inr (ih t' w hmem)

/-- Witness for C3: in a session where white sends one move, that move is
the only write after the two start messages and it is a client message. -/
theorem start_broadcast_witness :
    (Side.black, sampleMove).2 ∈
      [RelayEvent.mk Side.white sampleMove].map RelayEvent.msg :=
  start_broadcast.2.2 true [RelayEvent.mk Side.white sampleMove]
    (Side.black, sampleMove) (by decide)

/-- Claim C7: a reader whose first read failure comes after the given
successful reads publishes exactly those messages, in order, followed by
exactly one synthetic error message, and then terminates: reads queued
after the failure are never published. -/
theorem reader_single_error_signal (pre : List Message)
    (post : List (Except Unit Message)) :
    forwardFromWebsocketToChannel (pre.map Except.ok ++ Except.error () :: post) =
      pre ++ [errorMessage] := by
  induction pre with
  | nil => rfl
  | cons m rest ih => simp [forwardFromWebsocketToChannel, ih]

/-- Claim C8: whatever the relay forwards is the arriving message itself:
all five wire fields of the delivered message equal those of the message
sent by the originating client. -/
theorem forwarded_message_verbatim (t t' : Bool) (e : RelayEvent) (d : Side)
    (m : Message) (h : relayStep t e = StepResult.cont (some (d, m)) t') :
    m.«Type» = e.msg.«Type» ∧ m.Color = e.msg.Color ∧ m.From = e.msg.From ∧
      m.To = e.msg.To ∧ m.Promotion = e.msg.Promotion := by
  have hm : m = e.msg := relayStep_forward_src t t' e (d, m) h
  subst hm
  exact ⟨rfl, rfl, rfl, rfl, rfl⟩

/-- Witness for C8: a concrete forwarded move is delivered with all five
fields exactly as sent. -/
theorem forwarded_message_verbatim_witness :
    sampleMove.«Type» = sampleMove.«Type» ∧ sampleMove.Color = sampleMove.Color ∧
      sampleMove.From = sampleMove.From ∧ sampleMove.To = sampleMove.To ∧
      sampleMove.Promotion = sampleMove.Promotion :=
  forwarded_message_verbatim true false (RelayEvent.mk Side.white sampleMove)
    Side.black sampleMove (by decide)
